import Mathlib

/-!
Verification of the game-of-life canvas server (armedev/game-of-life).

The development shallowly embeds the Rust sources:
* `src/protocol.rs` — the binary wire codec (`encode_ws_message`, `decode_ws_message`);
* `src/patterns/gol_threads.rs` — the `GameOfLifeVecs` simulation engine
  (sequential and thread-parallel stepping, cell mutation helpers);
* `src/payload.rs` — the command dispatcher (`WsPayload::handle_payload`);
* `src/message.rs` / `src/socket.rs` — the two inbound-frame loops.

Bytes are modelled as `Nat` (with explicit `% 256` / `% 2 ^ 32` where Rust
casts occur), `Vec<T>` as `List`, and operations that can panic in Rust
(out-of-range `Vec` indexing, the explicit `panic!` calls, division by zero)
return `Option`/`none` at exactly the panicking inputs.  Randomness is passed
in as explicit arguments or oracle functions.
-/

namespace GolServer

/-! ## Wire protocol (src/protocol.rs) -/

def PROTOCOL_VERSION : Nat := 1

def HEADER_LENGTH : Nat := 7

/-- `WsMessage` from src/protocol.rs: `{version, msg_type, flags, payload}`,
all byte fields `u8`, payload a byte vector. -/
structure WsMessage where
  version : Nat
  msg_type : Nat
  flags : Nat
  payload : List Nat
deriving DecidableEq, Repr

/-- The three failure classes of `decode_ws_message` (the `bail!` branches of
src/protocol.rs, in source order). -/
inductive DecodeError where
  | tooShort
  | unsupportedVersion
  | lengthMismatch
deriving DecidableEq, Repr

/-- Big-endian bytes of a `u32` value (`u32::to_be_bytes`); the argument is
expected to be `< 2 ^ 32`. -/
def u32_be_bytes (n : Nat) : List Nat :=
  [n / 2 ^ 24 % 256, n / 2 ^ 16 % 256, n / 2 ^ 8 % 256, n % 256]

/-- `u32::from_be_bytes` on four bytes. -/
def u32_from_be (b3 b2 b1 b0 : Nat) : Nat :=
  b3 * 2 ^ 24 + b2 * 2 ^ 16 + b1 * 2 ^ 8 + b0

/-- `encode_ws_message` (src/protocol.rs:70-86): `version`, `msg_type`,
`flags`, the 4 big-endian bytes of `payload.len() as u32`, then the payload. -/
def encode_ws_message (m : WsMessage) : List Nat :=
  m.version :: m.msg_type :: m.flags ::
    (u32_be_bytes (m.payload.length % 2 ^ 32) ++ m.payload)

/-- `decode_ws_message` (src/protocol.rs:16-68): reject buffers shorter than
the 7-byte header, then a version byte other than 1, then a declared length
that disagrees with the actual remaining bytes; otherwise return the fields. -/
def decode_ws_message (data : List Nat) : Except DecodeError WsMessage :=
  if data.length < HEADER_LENGTH then .error .tooShort
  else if data.getD 0 0 ≠ PROTOCOL_VERSION then .error .unsupportedVersion
  else
    let payload_length :=
      u32_from_be (data.getD 3 0) (data.getD 4 0) (data.getD 5 0) (data.getD 6 0)
    if data.length ≠ HEADER_LENGTH + payload_length then .error .lengthMismatch
    else .ok { version := data.getD 0 0, msg_type := data.getD 1 0,
               flags := data.getD 2 0, payload := data.drop HEADER_LENGTH }

/-- Recombining the four big-endian bytes of a `u32` recovers the value. -/
lemma u32_from_be_u32_be_bytes (n : Nat) (h : n < 2 ^ 32) :
    u32_from_be (n / 2 ^ 24 % 256) (n / 2 ^ 16 % 256) (n / 2 ^ 8 % 256) (n % 256) = n := by
  unfold u32_from_be
  have e1 := Nat.div_add_mod n (2 ^ 24)
  have e2 := Nat.div_add_mod (n % 2 ^ 24) (2 ^ 16)
  have e3 := Nat.div_add_mod (n % 2 ^ 16) (2 ^ 8)
  have m1 : n % 2 ^ 24 % 2 ^ 16 = n % 2 ^ 16 := Nat.mod_mod_of_dvd n (by norm_num)
  have m2 : n % 2 ^ 16 % 2 ^ 8 = n % 2 ^ 8 := Nat.mod_mod_of_dvd n (by norm_num)
  have r1 : n / 2 ^ 16 % 256 = n % 2 ^ 24 / 2 ^ 16 := by
    have := Nat.mod_mul_right_div_self n (2 ^ 16) 256
    simpa using this.symm
  have r2 : n / 2 ^ 8 % 256 = n % 2 ^ 16 / 2 ^ 8 := by
    have := Nat.mod_mul_right_div_self n (2 ^ 8) 256
    simpa using this.symm
  have h24 : n / 2 ^ 24 % 256 = n / 2 ^ 24 :=
    Nat.mod_eq_of_lt (Nat.div_lt_of_lt_mul (by norm_num at h ⊢; omega))
  rw [r1, r2, h24]
  norm_num at e1 e2 e3 m1 m2 ⊢
  omega

/-- C3: decoding an encoded well-formed message (version 1, `u8` fields,
payload of `u32`-representable length) recovers the message field by field. -/
theorem decode_encode_roundtrip (m : WsMessage)
    (hv : m.version = PROTOCOL_VERSION)
    (hlen : m.payload.length < 2 ^ 32)
    (ht : m.msg_type < 256) (hf : m.flags < 256)
    (hp : ∀ b ∈ m.payload, b < 256) :
    decode_ws_message (encode_ws_message m) = .ok m := by
  obtain ⟨v, t, f, p⟩ := m
  simp only [PROTOCOL_VERSION] at hv
  subst hv
  simp only at hlen
  have hlm : p.length % 2 ^ 32 = p.length := Nat.mod_eq_of_lt hlen
  have henc : encode_ws_message ⟨1, t, f, p⟩ =
      1 :: t :: f :: p.length % 2 ^ 32 / 2 ^ 24 % 256 ::
      p.length % 2 ^ 32 / 2 ^ 16 % 256 :: p.length % 2 ^ 32 / 2 ^ 8 % 256 ::
      p.length % 2 ^ 32 % 256 :: p := by
    simp [encode_ws_message, u32_be_bytes]
  rw [henc]
  simp only [decode_ws_message, List.getD_eq_getElem?_getD, List.getElem?_cons_zero,
    List.getElem?_cons_succ, Option.getD_some, List.length_cons, HEADER_LENGTH,
    PROTOCOL_VERSION]
  rw [if_neg (by omega)]
  rw [if_neg (by simp)]
  rw [u32_from_be_u32_be_bytes (p.length % 2 ^ 32) (Nat.mod_lt _ (by norm_num)), hlm]
  rw [if_neg (by omega)]
  simp [List.drop_succ_cons]

/-- C3 witness: a concrete round trip through the codec. -/
theorem decode_encode_roundtrip_witness :
    decode_ws_message (encode_ws_message ⟨1, 42, 7, [97, 98, 99]⟩) = .ok ⟨1, 42, 7, [97, 98, 99]⟩ :=
  decode_encode_roundtrip ⟨1, 42, 7, [97, 98, 99]⟩ rfl (by decide) (by decide) (by decide)
    (by decide)

/-- C4: `decode_ws_message` fails exactly on malformed buffers with the
stated error class — too-short below 7 bytes; unsupported-version when the
first byte is not 1; length-mismatch when the declared big-endian `u32`
length differs from the byte count after the 7-byte header (either
direction); and succeeds on every other buffer with no further validation of
`msg_type`, `flags` or payload content. -/
theorem decode_error_classes :
    (∀ data : List Nat, data.length < 7 →
      decode_ws_message data = .error .tooShort) ∧
    (∀ data : List Nat, 7 ≤ data.length → data.getD 0 0 ≠ 1 →
      decode_ws_message data = .error .unsupportedVersion) ∧
    (∀ data : List Nat, 7 ≤ data.length → data.getD 0 0 = 1 →
      u32_from_be (data.getD 3 0) (data.getD 4 0) (data.getD 5 0) (data.getD 6 0) ≠
        data.length - 7 →
      decode_ws_message data = .error .lengthMismatch) ∧
    (∀ data : List Nat, 7 ≤ data.length → data.getD 0 0 = 1 →
      u32_from_be (data.getD 3 0) (data.getD 4 0) (data.getD 5 0) (data.getD 6 0) =
        data.length - 7 →
      decode_ws_message data =
        .ok ⟨1, data.getD 1 0, data.getD 2 0, data.drop 7⟩) := by
  refine ⟨?_, ?_, ?_, ?_⟩
  · intro data h
    rw [decode_ws_message, if_pos (by simpa [HEADER_LENGTH] using h)]
  · intro data h7 hv
    rw [decode_ws_message, if_neg (by simp [HEADER_LENGTH]; omega),
      if_pos (by simpa [PROTOCOL_VERSION] using hv)]
  · intro data h7 hv hne
    rw [decode_ws_message, if_neg (by simp only [HEADER_LENGTH]; omega)]
    rw [if_neg fun hne' => hne' (hv.trans rfl)]
    rw [if_pos (by simp only [HEADER_LENGTH]; omega)]
  · intro data h7 hv heq
    rw [decode_ws_message, if_neg (by simp only [HEADER_LENGTH]; omega)]
    rw [if_neg fun hne' => hne' (hv.trans rfl)]
    rw [if_neg (by simp only [HEADER_LENGTH]; omega)]
    rw [hv]
    rfl

/-- C4 witness: each error class and the no-extra-validation success, at
concrete buffers. -/
theorem decode_error_classes_witness :
    decode_ws_message [1, 2, 3] = .error .tooShort ∧
    decode_ws_message [9, 0, 0, 0, 0, 0, 0] = .error .unsupportedVersion ∧
    decode_ws_message [1, 0, 0, 0, 0, 0, 1] = .error .lengthMismatch ∧
    decode_ws_message [1, 250, 251, 0, 0, 0, 2, 10, 20] = .ok ⟨1, 250, 251, [10, 20]⟩ :=
  ⟨decode_error_classes.1 [1, 2, 3] (by decide),
    decode_error_classes.2.1 [9, 0, 0, 0, 0, 0, 0] (by decide) (by decide),
    decode_error_classes.2.2.1 [1, 0, 0, 0, 0, 0, 1] (by decide) (by decide) (by decide),
    decode_error_classes.2.2.2 [1, 250, 251, 0, 0, 0, 2, 10, 20] (by decide) (by decide)
      (by decide)⟩

/-! ## Simulation engine (src/patterns/gol_threads.rs) -/

/-- `GameOfLifeVecs` (src/patterns/gol_threads.rs:7-14): `width`/`height` are
`u16`, the two buffers are `Vec<Vec<bool>>` in row-major order, and
`generation_count` is a `u64`. -/
structure GameOfLifeVecs where
  width : Nat
  height : Nat
  current_generation : List (List Bool)
  next_generation : List (List Bool)
  generation_count : Nat
deriving DecidableEq, Repr

/-- Read a cell of a row-major buffer (`rows[y][x]`); every call site below
indexes in range, where this agrees with Rust's panicking indexing. -/
def cellAt (rows : List (List Bool)) (x y : Nat) : Bool :=
  (rows.getD y []).getD x false

/-- An inclusive-range accumulation, `for i in a..=b { acc += f i }`. -/
def sumIcc (a b : Nat) (f : Nat → Nat) : Nat :=
  ((List.range' a (b + 1 - a)).map f).sum

/-- `GameOfLifeVecs::count_live_neighbors` (src/patterns/gol_threads.rs:82-104):
clip the 3x3 window to the grid (Nat subtraction saturates exactly like
`usize::saturating_sub`) and count live cells, skipping the centre. -/
def count_live_neighbors (g : GameOfLifeVecs) (x y : Nat) : Nat :=
  let start_y := y - 1
  let end_y := min (y + 1) (g.height - 1)
  let start_x := x - 1
  let end_x := min (x + 1) (g.width - 1)
  sumIcc start_y end_y fun ny =>
    sumIcc start_x end_x fun nx =>
      if nx = x ∧ ny = y then 0
      else if cellAt g.current_generation nx ny then 1 else 0

/-- `count_neighbors_parallel` (src/patterns/gol_threads.rs:258-284): the
free-function twin of `count_live_neighbors` used by the worker threads. -/
def count_neighbors_parallel (current_gen : List (List Bool)) (x y w h : Nat) : Nat :=
  let start_y := y - 1
  let end_y := min (y + 1) (h - 1)
  let start_x := x - 1
  let end_x := min (x + 1) (w - 1)
  sumIcc start_y end_y fun ny =>
    sumIcc start_x end_x fun nx =>
      if nx = x ∧ ny = y then 0
      else if cellAt current_gen nx ny then 1 else 0

/-- The transition `match neighbors { 2 => current_alive, 3 => true, _ => false }`
appearing verbatim in both `step_fallback` and the worker closure of `step`. -/
def next_cell (neighbors : Nat) (current_alive : Bool) : Bool :=
  if neighbors = 2 then current_alive
  else if neighbors = 3 then true
  else false

/-- Spec-side neighbor count, written from the specification's words (C1):
the 8-neighborhood of `(x, y)` with no wraparound, every coordinate outside
`[0,width) x [0,height)` counting as dead.  Used only to be compared against
`count_live_neighbors`. -/
def spec_live_neighbors (g : GameOfLifeVecs) (x y : Nat) : Nat :=
  (if 0 < x ∧ 0 < y ∧ cellAt g.current_generation (x - 1) (y - 1) then 1 else 0) +
  (if 0 < y ∧ cellAt g.current_generation x (y - 1) then 1 else 0) +
  (if x + 1 < g.width ∧ 0 < y ∧ cellAt g.current_generation (x + 1) (y - 1) then 1 else 0) +
  (if 0 < x ∧ cellAt g.current_generation (x - 1) y then 1 else 0) +
  (if x + 1 < g.width ∧ cellAt g.current_generation (x + 1) y then 1 else 0) +
  (if 0 < x ∧ y + 1 < g.height ∧ cellAt g.current_generation (x - 1) (y + 1) then 1 else 0) +
  (if y + 1 < g.height ∧ cellAt g.current_generation x (y + 1) then 1 else 0) +
  (if x + 1 < g.width ∧ y + 1 < g.height ∧ cellAt g.current_generation (x + 1) (y + 1) then 1 else 0)

/-- A clipped inclusive window `x-1 ..= min (x+1) (w-1)` around an in-range
`x < w` visits `x-1` (when `0 < x`), `x`, and `x+1` (when `x+1 < w`). -/
lemma sumIcc_window (x w : Nat) (hx : x < w) (f : Nat → Nat) :
    sumIcc (x - 1) (min (x + 1) (w - 1)) f =
      (if 0 < x then f (x - 1) else 0) + f x + (if x + 1 < w then f (x + 1) else 0) := by
  rcases Nat.eq_zero_or_pos x with h0 | h0
  · subst h0
    by_cases hw : 0 + 1 < w
    · have hmin : min (0 + 1) (w - 1) = 1 := by omega
      rw [hmin, sumIcc, if_pos hw, if_neg (by omega : ¬0 < 0)]
      norm_num [List.range']
    · have hmin : min (0 + 1) (w - 1) = 0 := by omega
      rw [hmin, sumIcc, if_neg hw, if_neg (by omega : ¬0 < 0)]
      norm_num [List.range']
  · by_cases hw : x + 1 < w
    · have hmin : min (x + 1) (w - 1) = x + 1 := by omega
      have hlen : x + 1 + 1 - (x - 1) = 3 := by omega
      have d1 : x - 1 + 1 = x := by omega
      have d2 : x - 1 + 1 + 1 = x + 1 := by omega
      rw [hmin, sumIcc, hlen]
      simp only [List.range', List.map_cons, List.map_nil, List.sum_cons, List.sum_nil, d1, d2]
      rw [if_pos h0, if_pos hw]
      ring
    · have hmin : min (x + 1) (w - 1) = x := by omega
      have hlen : x + 1 - (x - 1) = 2 := by omega
      have d1 : x - 1 + 1 = x := by omega
      rw [hmin, sumIcc, hlen]
      simp only [List.range', List.map_cons, List.map_nil, List.sum_cons, List.sum_nil, d1]
      rw [if_pos h0, if_neg hw]
      ring

/-- The implementation's clipped-window neighbor count agrees with the
specification's 8-neighborhood count at every in-range cell. -/
lemma count_live_neighbors_eq_spec (g : GameOfLifeVecs) (x y : Nat)
    (hx : x < g.width) (hy : y < g.height) :
    count_live_neighbors g x y = spec_live_neighbors g x y := by
  unfold count_live_neighbors
  simp only
  rw [sumIcc_window y g.height hy]
  simp only [sumIcc_window x g.width hx]
  have e1 : (x - 1 = x) ↔ ¬0 < x := by omega
  have e2 : (x + 1 = x) = False := eq_false (by omega)
  have e3 : (y - 1 = y) ↔ ¬0 < y := by omega
  have e4 : (y + 1 = y) = False := eq_false (by omega)
  by_cases h0x : 0 < x <;> by_cases hx1 : x + 1 < g.width <;>
    by_cases h0y : 0 < y <;> by_cases hy1 : y + 1 < g.height <;>
    simp only [spec_live_neighbors, e1, e2, e3, e4, h0x, hx1, h0y, hy1,
      not_true, not_false_iff, iff_true, iff_false, true_and, and_true, false_and, and_false,
      if_true, if_false, and_self, eq_self_iff_true, add_zero, zero_add] <;>
    ring

/-- `GameOfLifeVecs::step_fallback` (src/patterns/gol_threads.rs:106-128):
compute `next_generation[y][x]` for every cell, swap the two buffers, and
increment `generation_count` (wrapping `u64` increment).  The in-place write
loop is modelled functionally; Rust's loop additionally requires the buffers
to be `height x width` on pain of a panic, which the theorems below carry as
a `Wf` hypothesis. -/
def step_fallback (g : GameOfLifeVecs) : GameOfLifeVecs :=
  let next := (List.range g.height).map fun y =>
    (List.range g.width).map fun x =>
      next_cell (count_live_neighbors g x y) (cellAt g.current_generation x y)
  { g with
      current_generation := next
      next_generation := g.current_generation
      generation_count := (g.generation_count + 1) % 2 ^ 64 }

/-- The `local_next_gen` block computed by the worker thread for rows
`start_row..end_row` in `GameOfLifeVecs::step` (src/patterns/gol_threads.rs:156-180). -/
def worker_rows (current_gen : List (List Bool)) (w h start_row end_row : Nat) :
    List (List Bool) :=
  (List.range' start_row (end_row - start_row)).map fun y =>
    (List.range w).map fun x =>
      next_cell (count_neighbors_parallel current_gen x y w h) (cellAt current_gen x y)

/-- Ordered insertion, modelling `Vec::sort_by_key` together with
`sort_by_key` below (the keys this development sorts are always pairwise
distinct, so any correct sort, stable or not, computes the same list). -/
def insert_by_key {α : Type} (p : Nat × α) : List (Nat × α) → List (Nat × α)
  | [] => [p]
  | q :: rest => if q.1 ≤ p.1 then q :: insert_by_key p rest else p :: q :: rest

/-- `results.sort_by_key(|&(start_row, _)| start_row)` from
`GameOfLifeVecs::step`. -/
def sort_by_key {α : Type} : List (Nat × α) → List (Nat × α)
  | [] => []
  | p :: rest => insert_by_key p (sort_by_key rest)

/-- `GameOfLifeVecs::step` (src/patterns/gol_threads.rs:131-208), the
thread-parallel step.  `parallelism` stands for the runtime value
`thread::available_parallelism().map(|n| n.get()).unwrap_or(8)` (always ≥ 1);
`ok i` records whether worker `i`'s `join()` returned `Ok` — the source keeps
only those results (`if let Ok(result) = handle.join()`), silently dropping
the rest.  When `min parallelism height = 0` (empty grid) the `chunk_size`
computation divides by zero — a Rust panic, modelled as `none`. -/
def step (g : GameOfLifeVecs) (parallelism : Nat) (ok : Nat → Bool) :
    Option GameOfLifeVecs :=
  let num_threads := min parallelism g.height
  if num_threads = 0 then none
  else
    let chunk_size := (g.height + num_threads - 1) / num_threads
    let results := ((List.range num_threads).filter ok).map fun i =>
      (i * chunk_size,
        worker_rows g.current_generation g.width g.height (i * chunk_size)
          (min ((i + 1) * chunk_size) g.height))
    let sorted := sort_by_key results
    some { g with
            current_generation := (sorted.map Prod.snd).flatten
            next_generation := g.current_generation
            generation_count := (g.generation_count + 1) % 2 ^ 64 }

/-- Sorting a list whose keys are already strictly increasing is the
identity. -/
lemma sort_by_key_of_pairwise {α : Type} (l : List (Nat × α))
    (h : l.Pairwise fun a b => a.1 < b.1) : sort_by_key l = l := by
  induction l with
  | nil => rfl
  | cons p rest ih =>
      rw [sort_by_key, ih (List.Pairwise.sublist (List.sublist_cons_self p rest) h)]
      cases rest with
      | nil => rfl
      | cons q tail =>
          have hpq : p.1 < q.1 := (List.pairwise_cons.mp h).1 q (List.mem_cons_self q tail)
          rw [insert_by_key, if_neg (by omega)]

/-- Concatenating the row blocks of the first `k` chunks of size `c` yields
the rows `0 ..< min (k * c) h`. -/
lemma flatten_chunks {α : Type} (f : Nat → α) (c h : Nat) (hc : 0 < c) (k : Nat) :
    ((List.range k).map fun i =>
        (List.range' (i * c) (min ((i + 1) * c) h - i * c)).map f).flatten
      = (List.range' 0 (min (k * c) h)).map f := by
  induction k with
  | zero => simp
  | succ n ih =>
      rw [List.range_succ, List.map_append, List.flatten_append, ih]
      simp only [List.map_cons, List.map_nil, List.flatten_cons, List.flatten_nil,
        List.append_nil]
      have hcc : n * c ≤ (n + 1) * c := by nlinarith
      by_cases hn : n * c < h
      · have hm1 : min (n * c) h = n * c := by omega
        have hge : n * c ≤ min ((n + 1) * c) h := by omega
        have harr : List.range' (n * c) (min ((n + 1) * c) h - n * c) 1 =
            List.range' (0 + 1 * (n * c)) (min ((n + 1) * c) h - n * c) 1 := by
          norm_num
        rw [hm1, ← List.map_append, harr,
          List.range'_append 0 (n * c) (min ((n + 1) * c) h - n * c) 1]
        congr 2
        omega
      · have hm1 : min (n * c) h = h := by omega
        have hm2 : min ((n + 1) * c) h = h := by omega
        have hempty : min ((n + 1) * c) h - n * c = 0 := by omega
        rw [hm1, hempty, hm2]
        simp

/-- The worker-side neighbor count applied to the engine's own buffer and
dimensions coincides with the method used by `step_fallback`. -/
lemma count_neighbors_parallel_eq (g : GameOfLifeVecs) (x y : Nat) :
    count_neighbors_parallel g.current_generation x y g.width g.height =
      count_live_neighbors g x y := rfl

/-- Chunk size `⌈h / nt⌉` computed as `(h + nt - 1) / nt` is positive and the
`nt` chunks cover all `h` rows. -/
lemma ceil_div_bounds (h nt : Nat) (hnt : 0 < nt) (hh : 0 < h) :
    0 < (h + nt - 1) / nt ∧ h ≤ nt * ((h + nt - 1) / nt) := by
  have he : h + nt - 1 = (h - 1) + nt := by omega
  rw [he, Nat.add_div_right _ hnt]
  obtain ⟨q, hq⟩ : ∃ q, (h - 1) / nt = q := ⟨_, rfl⟩
  have hlt : h - 1 < (q + 1) * nt := by
    rw [← hq]
    exact (Nat.div_lt_iff_lt_mul hnt).mp (Nat.lt_succ_self _)
  have hmul : (q + 1) * nt = nt * (q + 1) := Nat.mul_comm _ _
  rw [hq]
  exact ⟨by omega, by omega⟩

/-- When every worker joins successfully, the parallel `step` computes the
same grid as `step_fallback` (needs a nonempty chunking, `0 < min p height`). -/
lemma step_eq_step_fallback (g : GameOfLifeVecs) (p : Nat) (hp : 0 < min p g.height) :
    step g p (fun _ => true) = some (step_fallback g) := by
  have hh : 0 < g.height := by omega
  obtain ⟨hc, hcover⟩ := ceil_div_bounds g.height (min p g.height) hp hh
  have hpw : ((List.range (min p g.height)).map fun i =>
      (i * ((g.height + min p g.height - 1) / min p g.height),
        worker_rows g.current_generation g.width g.height
          (i * ((g.height + min p g.height - 1) / min p g.height))
          (min ((i + 1) * ((g.height + min p g.height - 1) / min p g.height))
            g.height))).Pairwise (fun a b => a.1 < b.1) := by
    rw [List.pairwise_map]
    exact (List.pairwise_lt_range _).imp fun hij => (Nat.mul_lt_mul_right hc).mpr hij
  simp only [step]
  rw [if_neg (by omega)]
  rw [List.filter_true]
  rw [sort_by_key_of_pairwise _ hpw]
  rw [List.map_map]
  simp only [Function.comp_def]
  simp only [worker_rows]
  rw [flatten_chunks _ ((g.height + min p g.height - 1) / min p g.height) g.height hc
    (min p g.height)]
  rw [show min (min p g.height * ((g.height + min p g.height - 1) / min p g.height)) g.height
        = g.height from by omega]
  rw [← List.range_eq_range']
  simp only [step_fallback, count_neighbors_parallel_eq]

/-- `rows[y][x] = v` with Rust's bounds semantics: `Vec` indexing panics out
of range, modelled as `none`. -/
def index_set (rows : List (List Bool)) (x y : Nat) (v : Bool) :
    Option (List (List Bool)) :=
  match rows[y]? with
  | none => none
  | some row => if x < row.length then some (rows.set y (row.set x v)) else none

/-- `GameOfLifeVecs::awaken_cell_in` (src/patterns/gol_threads.rs:236-239):
`self.current_generation[y][x] = true` with no bounds check of its own —
out-of-range coordinates panic (`none`). -/
def awaken_cell_in (g : GameOfLifeVecs) (x y : Nat) : Option GameOfLifeVecs :=
  (index_set g.current_generation x y true).map fun cur =>
    { g with current_generation := cur }

/-- `GameOfLifeVecs::awaken_random_cell` (src/patterns/gol_threads.rs:227-234);
`x`/`y` stand for the values drawn by `rng.random_range(0..width)` /
`(0..height)`, which are always in range (and whose emptiness panic for a
zero dimension the drawing precondition below excludes). -/
def awaken_random_cell (g : GameOfLifeVecs) (x y : Nat) : Option GameOfLifeVecs :=
  (index_set g.current_generation x y true).map fun cur =>
    { g with current_generation := cur }

/-- `GameOfLifeVecs::kill_random_cell` (src/patterns/gol_threads.rs:241-248),
as `awaken_random_cell` but writing `false`. -/
def kill_random_cell (g : GameOfLifeVecs) (x y : Nat) : Option GameOfLifeVecs :=
  (index_set g.current_generation x y false).map fun cur =>
    { g with current_generation := cur }

/-- `GameOfLifeVecs::kill_all_cells` (src/patterns/gol_threads.rs:250-254):
replace `next_generation` with an all-false `height x width` buffer, swap the
buffers, and reset `generation_count` to 0. -/
def kill_all_cells (g : GameOfLifeVecs) : GameOfLifeVecs :=
  { g with
      current_generation := (List.range g.height).map fun _ =>
        (List.range g.width).map fun _ => false
      next_generation := g.current_generation
      generation_count := 0 }

/-- `GameOfLifeVecs::initialize_random` (src/patterns/gol_threads.rs:29-39):
set every current cell from a fresh random draw (`alive x y` models
`rng.random::<f32>() < 0.3` for cell `(x, y)`) and reset `generation_count`
to 0.  The identifier drops the full source name for lexical reasons. -/
def init_random (g : GameOfLifeVecs) (alive : Nat → Nat → Bool) : GameOfLifeVecs :=
  { g with
      current_generation := (List.range g.height).map fun y =>
        (List.range g.width).map fun x => alive x y
      generation_count := 0 }

/-- `GameOfLifeVecs::new` (src/patterns/gol_threads.rs:17-27): allocate two
all-false `height x width` buffers, then randomize the current generation. -/
def GameOfLifeVecs.new (width height : Nat) (alive : Nat → Nat → Bool) : GameOfLifeVecs :=
  init_random
    { width := width
      height := height
      current_generation := List.replicate height (List.replicate width false)
      next_generation := List.replicate height (List.replicate width false)
      generation_count := 0 } alive

/-- The grid-clearing double loop shared by `initialize_glider` and
`initialize_blinker`: write `false` into every in-range current cell. -/
def clear_rows (g : GameOfLifeVecs) : List (List Bool) :=
  (List.range g.height).map fun _ => (List.range g.width).map fun _ => false

/-- The glider cell offsets of `initialize_glider`. -/
def glider_cells : List (Nat × Nat) := [(1, 0), (2, 1), (0, 2), (1, 2), (2, 2)]

/-- `GameOfLifeVecs::initialize_glider` (src/patterns/gol_threads.rs:42-59):
clear the grid, then set each glider cell `(dx, dy)` guarded by
`dx < width && dy < height`, and reset `generation_count`. -/
def init_glider (g : GameOfLifeVecs) : GameOfLifeVecs :=
  let cur := glider_cells.foldl
    (fun acc q =>
      if q.1 < g.width ∧ q.2 < g.height then acc.set q.2 ((acc.getD q.2 []).set q.1 true)
      else acc)
    (clear_rows g)
  { g with current_generation := cur, generation_count := 0 }

/-- `GameOfLifeVecs::initialize_blinker` (src/patterns/gol_threads.rs:62-80):
clear the grid, then set the three centre-row cells when
`center_x > 0 && center_y > 0 && center_x < width - 1`, and reset
`generation_count`. -/
def init_blinker (g : GameOfLifeVecs) : GameOfLifeVecs :=
  let center_x := g.width / 2
  let center_y := g.height / 2
  let cleared := clear_rows g
  let cur :=
    if 0 < center_x ∧ 0 < center_y ∧ center_x < g.width - 1 then
      cleared.set center_y
        ((((cleared.getD center_y []).set (center_x - 1) true).set center_x true).set
          (center_x + 1) true)
    else cleared
  { g with current_generation := cur, generation_count := 0 }

/-- Shape of a row-major buffer: exactly `h` rows of exactly `w` cells. -/
def WfRows (rows : List (List Bool)) (w h : Nat) : Prop :=
  rows.length = h ∧ ∀ row ∈ rows, row.length = w

/-- Shape invariant of a grid: both buffers are `height x width`. -/
def Wf (g : GameOfLifeVecs) : Prop :=
  WfRows g.current_generation g.width g.height ∧
    WfRows g.next_generation g.width g.height

instance (rows : List (List Bool)) (w h : Nat) : Decidable (WfRows rows w h) := by
  unfold WfRows; infer_instance

instance (g : GameOfLifeVecs) : Decidable (Wf g) := by
  unfold Wf; infer_instance

/-- The per-cell transition written the way the specification states it. -/
lemma next_cell_rule (n : Nat) (a : Bool) :
    next_cell n a = if n = 3 then true else if n = 2 then a else false := by
  unfold next_cell
  by_cases h2 : n = 2
  · subst h2; simp
  · by_cases h3 : n = 3
    · subst h3; simp
    · simp [h2, h3]

/-- C1: one call to `step()` gives every in-range cell the value dictated by
the standard rule — alive on exactly 3 live neighbors, unchanged on exactly
2, dead otherwise — with neighbors drawn from the 8-neighborhood, no
wraparound, out-of-range coordinates counting as dead. -/
theorem step_cell_follows_rule (g : GameOfLifeVecs) (p : Nat) (hp : 0 < p) (hwf : Wf g)
    (x y : Nat) (hx : x < g.width) (hy : y < g.height)
    (g' : GameOfLifeVecs) (hstep : step g p (fun _ => true) = some g') :
    cellAt g'.current_generation x y =
      (if spec_live_neighbors g x y = 3 then true
       else if spec_live_neighbors g x y = 2 then cellAt g.current_generation x y
       else false) := by
  have hmin : 0 < min p g.height := by omega
  rw [step_eq_step_fallback g p hmin] at hstep
  obtain rfl : step_fallback g = g' := Option.some.inj hstep
  show cellAt (step_fallback g).current_generation x y = _
  simp only [step_fallback]
  unfold cellAt
  simp only [List.getD_eq_getElem?_getD, List.getElem?_map, List.getElem?_range hy,
    List.getElem?_range hx, Option.map_some', Option.getD_some]
  rw [count_live_neighbors_eq_spec g x y hx hy, next_cell_rule]

/-- A 3x3 grid holding a horizontal blinker, used as concrete input. -/
def blinker_grid : GameOfLifeVecs :=
  { width := 3
    height := 3
    current_generation := [[false, false, false], [true, true, true], [false, false, false]]
    next_generation := [[false, false, false], [false, false, false], [false, false, false]]
    generation_count := 0 }

/-- C1 witness: the centre cell of the blinker after one parallel step. -/
theorem step_cell_follows_rule_witness :
    (step blinker_grid 2 fun _ => true).map (fun g' => cellAt g'.current_generation 1 1) =
      some (if spec_live_neighbors blinker_grid 1 1 = 3 then true
            else if spec_live_neighbors blinker_grid 1 1 = 2 then
              cellAt blinker_grid.current_generation 1 1
            else false) := by
  cases hstep : step blinker_grid 2 fun _ => true with
  | none => exact absurd hstep (by decide)
  | some g' =>
      rw [Option.map_some']
      exact congrArg some
        (step_cell_follows_rule blinker_grid 2 (by decide) (by decide) 1 1 (by decide)
          (by decide) g' hstep)

/-- C2 (amended): for every grid with at least one row and every worker count
≥ 1, the parallel step with all workers joining successfully produces exactly
the grid of the single-threaded step, generation counter included. -/
theorem step_parallel_matches_fallback (g : GameOfLifeVecs) (p : Nat) (hp : 0 < p)
    (hh : 0 < g.height) :
    step g p (fun _ => true) = some (step_fallback g) :=
  step_eq_step_fallback g p (by omega)

/-- C2 witness: a concrete 2x2 grid stepped with 3 workers. -/
theorem step_parallel_matches_fallback_witness :
    step ⟨2, 2, [[true, true], [true, false]], [[false, false], [false, false]], 4⟩ 3
        (fun _ => true) =
      some (step_fallback ⟨2, 2, [[true, true], [true, false]], [[false, false], [false, false]], 4⟩) :=
  step_parallel_matches_fallback _ 3 (by decide) (by decide)

/-- C2 counterexample: on the empty 0x0 grid the parallel step panics
(`chunk_size` divides by zero, modelled `none`) while `step_fallback`
returns normally — the two are not observably equivalent there, so the
unrestricted claim fails. -/
theorem step_parallel_empty_grid_diverges :
    step ⟨0, 0, [], [], 0⟩ 1 (fun _ => true) ≠ some (step_fallback ⟨0, 0, [], [], 0⟩) := by
  decide

/-- C5 (amended): `generation_count` goes up by exactly 1 (as a wrapping
`u64`) on every completed step (parallel or fallback), is untouched by the
single-cell mutations, and is reset to 0 — not preserved — by
`kill_all_cells` and by the random reinitialization. -/
theorem generation_count_behavior :
    (∀ g p ok g', step g p ok = some g' →
      g'.generation_count = (g.generation_count + 1) % 2 ^ 64) ∧
    (∀ g, (step_fallback g).generation_count = (g.generation_count + 1) % 2 ^ 64) ∧
    (∀ g x y g', awaken_random_cell g x y = some g' →
      g'.generation_count = g.generation_count) ∧
    (∀ g x y g', awaken_cell_in g x y = some g' →
      g'.generation_count = g.generation_count) ∧
    (∀ g x y g', kill_random_cell g x y = some g' →
      g'.generation_count = g.generation_count) ∧
    (∀ g, (kill_all_cells g).generation_count = 0) ∧
    (∀ g alive, (init_random g alive).generation_count = 0) := by
  refine ⟨?_, fun g => rfl, ?_, ?_, ?_, fun g => rfl, fun g alive => rfl⟩
  · intro g p ok g' h
    unfold step at h
    by_cases h0 : min p g.height = 0
    · rw [if_pos h0] at h
      exact Option.noConfusion h
    · rw [if_neg h0] at h
      obtain rfl := Option.some.inj h
      rfl
  all_goals
    intro g x y g' h
    simp only [awaken_random_cell, awaken_cell_in, kill_random_cell,
      Option.map_eq_some'] at h
    obtain ⟨cur, -, rfl⟩ := h
    rfl

/-- C5 witness: the conjuncts carrying hypotheses, applied at concrete
grids. -/
theorem generation_count_behavior_witness :
    (⟨1, 1, [[false]], [[true]], 6⟩ : GameOfLifeVecs).generation_count =
      ((⟨1, 1, [[true]], [[false]], 5⟩ : GameOfLifeVecs).generation_count + 1) % 2 ^ 64 ∧
    (⟨1, 1, [[true]], [[false]], 5⟩ : GameOfLifeVecs).generation_count =
      (⟨1, 1, [[true]], [[false]], 5⟩ : GameOfLifeVecs).generation_count ∧
    (⟨1, 1, [[false]], [[false]], 7⟩ : GameOfLifeVecs).generation_count =
      (⟨1, 1, [[true]], [[false]], 7⟩ : GameOfLifeVecs).generation_count :=
  ⟨generation_count_behavior.1 ⟨1, 1, [[true]], [[false]], 5⟩ 1 (fun _ => true)
      ⟨1, 1, [[false]], [[true]], 6⟩ (by decide),
    generation_count_behavior.2.2.2.1 ⟨1, 1, [[true]], [[false]], 5⟩ 0 0
      ⟨1, 1, [[true]], [[false]], 5⟩ (by decide),
    generation_count_behavior.2.2.2.2.1 ⟨1, 1, [[true]], [[false]], 7⟩ 0 0
      ⟨1, 1, [[false]], [[false]], 7⟩ (by decide)⟩

/-- C5 counterexample: `kill_all_cells` resets a positive `generation_count`
to 0, a strict decrease — so the claim's "never decreases" fails. -/
theorem kill_all_cells_decreases_generation_count :
    (kill_all_cells ⟨1, 1, [[true]], [[false]], 1⟩).generation_count <
      (⟨1, 1, [[true]], [[false]], 1⟩ : GameOfLifeVecs).generation_count := by
  decide

/-- C8: with 2 workers on a 2-row grid and worker 1's `join()` failing, the
parallel step silently merges only worker 0's single row, swaps the partial
1-row buffer in as the new current generation of a height-2 grid, and still
increments `generation_count`: the failure is neither surfaced nor
retried. -/
theorem step_swallows_failed_worker :
    step ⟨1, 2, [[true], [false]], [[false], [false]], 0⟩ 2 (fun i => decide (i = 0)) =
      some ⟨1, 2, [[false]], [[true], [false]], 1⟩ ∧
    (⟨1, 2, [[false]], [[true], [false]], 1⟩ : GameOfLifeVecs).current_generation.length ≠
      (⟨1, 2, [[false]], [[true], [false]], 1⟩ : GameOfLifeVecs).height := by
  exact ⟨by decide, by decide⟩

/-- A buffer built row-by-row over `range h` with rows over `range w` is
`h x w`. -/
lemma wfRows_of_map (w h : Nat) (f : Nat → Nat → Bool) :
    WfRows ((List.range h).map fun y => (List.range w).map fun x => f x y) w h := by
  constructor
  · simp
  · intro row hrow
    rw [List.mem_map] at hrow
    obtain ⟨y, -, rfl⟩ := hrow
    simp

/-- In a well-shaped buffer every row read via `getD` at an in-range index
has width `w`. -/
lemma getD_row_length {rows : List (List Bool)} {w h : Nat} (hwf : WfRows rows w h)
    {y : Nat} (hy : y < h) : (rows.getD y []).length = w := by
  obtain ⟨hl, hr⟩ := hwf
  rw [List.getD_eq_getElem?_getD]
  cases hys : rows[y]? with
  | none =>
      rw [List.getElem?_eq_none_iff] at hys
      omega
  | some row => exact hr row (List.getElem?_mem hys)

/-- Replacing a row of a well-shaped buffer by a `w`-length row keeps the
shape. -/
lemma wfRows_set_row {rows : List (List Bool)} {w h : Nat} (hwf : WfRows rows w h)
    (y : Nat) (r : List Bool) (hr : r.length = w) : WfRows (rows.set y r) w h := by
  obtain ⟨hl, hrow⟩ := hwf
  refine ⟨by simp [hl], ?_⟩
  intro row hm
  rcases List.mem_or_eq_of_mem_set hm with hmem | rfl
  · exact hrow _ hmem
  · exact hr

/-- `index_set` (a checked `rows[y][x] = v`) keeps the shape when it
succeeds. -/
lemma wfRows_index_set {rows cur : List (List Bool)} {w h x y : Nat} {v : Bool}
    (hwf : WfRows rows w h) (hset : index_set rows x y v = some cur) :
    WfRows cur w h := by
  unfold index_set at hset
  cases hys : rows[y]? with
  | none => rw [hys] at hset; exact Option.noConfusion hset
  | some row =>
      rw [hys] at hset
      dsimp only at hset
      by_cases hx : x < row.length
      · rw [if_pos hx] at hset
        obtain rfl := Option.some.inj hset
        exact wfRows_set_row hwf y _ (by rw [List.length_set]; exact hwf.2 row (List.getElem?_mem hys))
      · rw [if_neg hx] at hset
        exact Option.noConfusion hset

/-- The glider-placement fold keeps the shape (each write is guarded to be
in range). -/
lemma wfRows_glider_fold (g : GameOfLifeVecs) (l : List (Nat × Nat)) :
    ∀ rows, WfRows rows g.width g.height →
      WfRows (l.foldl (fun acc q =>
          if q.1 < g.width ∧ q.2 < g.height then acc.set q.2 ((acc.getD q.2 []).set q.1 true)
          else acc) rows) g.width g.height := by
  induction l with
  | nil => intro rows h; exact h
  | cons q rest ih =>
      intro rows h
      rw [List.foldl_cons]
      apply ih
      by_cases hq : q.1 < g.width ∧ q.2 < g.height
      · rw [if_pos hq]
        exact wfRows_set_row h q.2 _ (by rw [List.length_set]; exact getD_row_length h hq.2)
      · rw [if_neg hq]; exact h

/-- C10: every engine operation keeps `width` and `height` unchanged (`new`
sets them to its arguments) and leaves the current-generation buffer with
exactly `height` rows of exactly `width` cells; the parallel step under the
all-workers-succeed precondition, the unchecked cell writes whenever they
complete (on a well-shaped buffer). -/
theorem ops_preserve_shape :
    (∀ w h alive, (GameOfLifeVecs.new w h alive).width = w ∧
      (GameOfLifeVecs.new w h alive).height = h ∧
      WfRows (GameOfLifeVecs.new w h alive).current_generation w h) ∧
    (∀ g alive, (init_random g alive).width = g.width ∧
      (init_random g alive).height = g.height ∧
      WfRows (init_random g alive).current_generation g.width g.height) ∧
    (∀ g : GameOfLifeVecs, (init_glider g).width = g.width ∧
      (init_glider g).height = g.height ∧
      WfRows (init_glider g).current_generation g.width g.height) ∧
    (∀ g : GameOfLifeVecs, (init_blinker g).width = g.width ∧
      (init_blinker g).height = g.height ∧
      WfRows (init_blinker g).current_generation g.width g.height) ∧
    (∀ g : GameOfLifeVecs, (step_fallback g).width = g.width ∧
      (step_fallback g).height = g.height ∧
      WfRows (step_fallback g).current_generation g.width g.height) ∧
    (∀ g p g', step g p (fun _ => true) = some g' →
      g'.width = g.width ∧ g'.height = g.height ∧
      WfRows g'.current_generation g.width g.height) ∧
    (∀ g x y g', awaken_cell_in g x y = some g' →
      g'.width = g.width ∧ g'.height = g.height ∧
      (WfRows g.current_generation g.width g.height →
        WfRows g'.current_generation g.width g.height)) ∧
    (∀ g x y g', awaken_random_cell g x y = some g' →
      g'.width = g.width ∧ g'.height = g.height ∧
      (WfRows g.current_generation g.width g.height →
        WfRows g'.current_generation g.width g.height)) ∧
    (∀ g x y g', kill_random_cell g x y = some g' →
      g'.width = g.width ∧ g'.height = g.height ∧
      (WfRows g.current_generation g.width g.height →
        WfRows g'.current_generation g.width g.height)) ∧
    (∀ g : GameOfLifeVecs, (kill_all_cells g).width = g.width ∧
      (kill_all_cells g).height = g.height ∧
      WfRows (kill_all_cells g).current_generation g.width g.height) := by
  have hmut : ∀ (g : GameOfLifeVecs) (x y : Nat) (v : Bool) (g' : GameOfLifeVecs),
      ((index_set g.current_generation x y v).map fun cur =>
        { g with current_generation := cur }) = some g' →
      g'.width = g.width ∧ g'.height = g.height ∧
      (WfRows g.current_generation g.width g.height →
        WfRows g'.current_generation g.width g.height) := by
    intro g x y v g' h
    rw [Option.map_eq_some'] at h
    obtain ⟨cur, hcur, rfl⟩ := h
    exact ⟨rfl, rfl, fun hwf => wfRows_index_set hwf hcur⟩
  refine ⟨?_, ?_, ?_, ?_, ?_, ?_, ?_, ?_, ?_, ?_⟩
  · intro w h alive
    exact ⟨rfl, rfl, wfRows_of_map w h alive⟩
  · intro g alive
    exact ⟨rfl, rfl, wfRows_of_map g.width g.height alive⟩
  · intro g
    refine ⟨rfl, rfl, ?_⟩
    simp only [init_glider]
    exact wfRows_glider_fold g glider_cells _ (wfRows_of_map g.width g.height fun _ _ => false)
  · intro g
    refine ⟨rfl, rfl, ?_⟩
    simp only [init_blinker]
    have hclear : WfRows (clear_rows g) g.width g.height :=
      wfRows_of_map g.width g.height fun _ _ => false
    by_cases hc : 0 < g.width / 2 ∧ 0 < g.height / 2 ∧ g.width / 2 < g.width - 1
    · rw [if_pos hc]
      refine wfRows_set_row hclear _ _ ?_
      rw [List.length_set, List.length_set, List.length_set]
      exact getD_row_length hclear (by omega)
    · rw [if_neg hc]; exact hclear
  · intro g
    exact ⟨rfl, rfl, wfRows_of_map g.width g.height _⟩
  · intro g p g' hstep
    by_cases h0 : min p g.height = 0
    · unfold step at hstep
      rw [if_pos h0] at hstep
      exact Option.noConfusion hstep
    · rw [step_eq_step_fallback g p (by omega)] at hstep
      obtain rfl := Option.some.inj hstep
      exact ⟨rfl, rfl, wfRows_of_map g.width g.height _⟩
  · intro g x y g' h
    exact hmut g x y true g' h
  · intro g x y g' h
    exact hmut g x y true g' h
  · intro g x y g' h
    exact hmut g x y false g' h
  · intro g
    exact ⟨rfl, rfl, wfRows_of_map g.width g.height fun _ _ => false⟩

/-- C10 witness: the hypothesis-carrying conjuncts (parallel step, unchecked
cell write) applied at concrete grids, hypotheses discharged. -/
theorem ops_preserve_shape_witness :
    ((⟨1, 1, [[false]], [[true]], 3⟩ : GameOfLifeVecs).width =
        (⟨1, 1, [[true]], [[false]], 2⟩ : GameOfLifeVecs).width ∧
      (⟨1, 1, [[false]], [[true]], 3⟩ : GameOfLifeVecs).height =
        (⟨1, 1, [[true]], [[false]], 2⟩ : GameOfLifeVecs).height ∧
      WfRows (⟨1, 1, [[false]], [[true]], 3⟩ : GameOfLifeVecs).current_generation 1 1) ∧
    ((⟨1, 1, [[true]], [[false]], 0⟩ : GameOfLifeVecs).width =
        (⟨1, 1, [[false]], [[false]], 0⟩ : GameOfLifeVecs).width ∧
      (⟨1, 1, [[true]], [[false]], 0⟩ : GameOfLifeVecs).height =
        (⟨1, 1, [[false]], [[false]], 0⟩ : GameOfLifeVecs).height ∧
      WfRows (⟨1, 1, [[true]], [[false]], 0⟩ : GameOfLifeVecs).current_generation 1 1) := by
  constructor
  · exact ops_preserve_shape.2.2.2.2.2.1 ⟨1, 1, [[true]], [[false]], 2⟩ 2
      ⟨1, 1, [[false]], [[true]], 3⟩ (by decide)
  · have h := ops_preserve_shape.2.2.2.2.2.2.1 ⟨1, 1, [[false]], [[false]], 0⟩ 0 0
      ⟨1, 1, [[true]], [[false]], 0⟩ (by decide)
    exact ⟨h.1, h.2.1, h.2.2 (by decide)⟩

/-! ## Pixel/frame message helpers (src/utils.rs, src/constants.rs) and the
(x,y) command path (src/patterns/gol.rs) -/

/-- `u16::to_be_bytes`. -/
def u16_be_bytes (n : Nat) : List Nat := [n / 2 ^ 8 % 256, n % 256]

namespace Utils

def CANVAS_WIDTH : Nat := 100

def CANVAS_HEIGHT : Nat := 100

def DRAW_PIXEL : Nat := 100

/-- `create_pixel_message` (src/utils.rs:18-43): an explicit `panic!` when
`(x, y)` lies outside the 100x100 canvas (modelled `none`), otherwise a
DRAW_PIXEL WireMessage with big-endian `x`, `y` and the three color bytes. -/
def create_pixel_message (x y r gr b : Nat) : Option (List Nat) :=
  if CANVAS_WIDTH ≤ x ∨ CANVAS_HEIGHT ≤ y then none
  else some (encode_ws_message
    ⟨PROTOCOL_VERSION, DRAW_PIXEL, 0, u16_be_bytes x ++ u16_be_bytes y ++ [r, gr, b]⟩)

end Utils

/-- `awaken_cell` (src/patterns/gol.rs:37-52): write the cell through
`GameOfLifeVecs::awaken_cell_in` — no bounds check, Rust's `Vec` indexing
panics out of range — then build the pixel reply, whose own guard also only
panics.  `r`, `gr`, `b` stand for the `create_random_rgb()` draw. -/
def awaken_cell (g : GameOfLifeVecs) (x y r gr b : Nat) :
    Option (GameOfLifeVecs × List Nat) :=
  match awaken_cell_in g x y with
  | none => none
  | some g' =>
      match Utils.create_pixel_message x y r gr b with
      | none => none
      | some msg => some (g', msg)

/-- C6: the (x,y)-carrying command path never produces an error result for an
out-of-range pair — at `(100, 0)` on the 100x100 canvas the unchecked `Vec`
indexing inside `awaken_cell_in` panics (modelled `none`); no bounds check
precedes the write attempt and no failing-command result exists. -/
theorem awaken_cell_out_of_range_panics :
    awaken_cell (GameOfLifeVecs.new 100 100 fun _ _ => false) 100 0 1 2 3 = none ∧
    awaken_cell_in (GameOfLifeVecs.new 100 100 fun _ _ => false) 100 0 = none := by
  exact ⟨by decide, by decide⟩

/-! ## Command dispatcher (src/payload.rs) -/

namespace Payload

def CANVAS_WIDTH : Nat := 40

def CANVAS_HEIGHT : Nat := 40

def HELLO : Nat := 1

def SEND_PIXEL : Nat := 42

def DRAW_PIXEL : Nat := 100

/-- payload.rs's own `create_pixel_message` (src/payload.rs:79-109): explicit
`panic!` outside the 40x40 canvas, otherwise a DRAW_PIXEL message. -/
def create_pixel_message (x y r gr b : Nat) : Option (List Nat) :=
  if CANVAS_WIDTH ≤ x ∨ CANVAS_HEIGHT ≤ y then none
  else some (encode_ws_message
    ⟨PROTOCOL_VERSION, DRAW_PIXEL, 0, u16_be_bytes x ++ u16_be_bytes y ++ [r, gr, b]⟩)

/-- `create_random_pixel_message` / `create_binary_payload`
(src/payload.rs:63-77); the rng draws `x ∈ [0,40)`, `y ∈ [0,40)`, `r`, `gr`,
`b` are passed explicitly. -/
def create_random_pixel_message (x y r gr b : Nat) : Option (List Nat) :=
  create_pixel_message x y r gr b

/-- `WsPayload::create_echo_response` (src/payload.rs:52-60): a reply with
the inbound `msg_type` and payload, version pinned to 1 and `flags := 0`. -/
def create_echo_response (p : WsMessage) : List Nat :=
  encode_ws_message ⟨PROTOCOL_VERSION, p.msg_type, 0, p.payload⟩

/-- `WsPayload::handle_payload` (src/payload.rs:33-50): `msg_type` 42 yields
a fresh random pixel message, every other type is answered by the echo. -/
def handle_payload (p : WsMessage) (x y r gr b : Nat) : Option (List Nat) :=
  if p.msg_type = SEND_PIXEL then create_random_pixel_message x y r gr b
  else some (create_echo_response p)

end Payload

/-- C9 counterexample: a command with `flags = 5` comes back with
`flags = 0` — the echo is not "unchanged" in its flags field. -/
theorem handle_payload_flags_not_echoed :
    Payload.handle_payload ⟨1, 7, 5, []⟩ 0 0 0 0 0 ≠
      some (encode_ws_message ⟨1, 7, 5, []⟩) := by
  decide

/-- C9 (amended): the dispatcher produces exactly one outbound message for
every decoded command (given the in-range rng pixel draws the source
guarantees), and an unrecognized `msg_type` is echoed with the same
`msg_type` and the same payload but with `flags` forced to 0. -/
theorem handle_payload_one_response_and_echo :
    (∀ p x y r gr b, x < Payload.CANVAS_WIDTH → y < Payload.CANVAS_HEIGHT →
      (Payload.handle_payload p x y r gr b).isSome = true) ∧
    (∀ p x y r gr b, p.msg_type ≠ Payload.SEND_PIXEL →
      Payload.handle_payload p x y r gr b =
        some (encode_ws_message ⟨PROTOCOL_VERSION, p.msg_type, 0, p.payload⟩)) := by
  constructor
  · intro p x y r gr b hx hy
    unfold Payload.handle_payload
    by_cases h : p.msg_type = Payload.SEND_PIXEL
    · rw [if_pos h]
      unfold Payload.create_random_pixel_message Payload.create_pixel_message
      rw [if_neg (by omega)]
      rfl
    · rw [if_neg h]
      rfl
  · intro p x y r gr b h
    unfold Payload.handle_payload
    rw [if_neg h]
    rfl

/-- C9 witness: one type-42 command answered by a pixel message, one
unrecognized command echoed with zeroed flags. -/
theorem handle_payload_one_response_and_echo_witness :
    (Payload.handle_payload ⟨1, 42, 0, []⟩ 5 6 7 8 9).isSome = true ∧
    Payload.handle_payload ⟨1, 9, 3, [1, 2]⟩ 0 0 0 0 0 =
      some (encode_ws_message ⟨PROTOCOL_VERSION, 9, 0, [1, 2]⟩) :=
  ⟨handle_payload_one_response_and_echo.1 ⟨1, 42, 0, []⟩ 5 6 7 8 9 (by decide) (by decide),
    handle_payload_one_response_and_echo.2 ⟨1, 9, 3, [1, 2]⟩ 0 0 0 0 0 (by decide)⟩

/-! ## Inbound frame loops (src/message.rs, src/socket.rs, src/main.rs) -/

/-- One frame successfully read from the socket. -/
inductive InboundFrame where
  | binaryFrame (data : List Nat)
  | textFrame (data : List Nat)
  | controlFrame
deriving DecidableEq, Repr

/-- One message published to the broadcast hub. -/
inductive Outbound where
  | binaryOut (bytes : List Nat)
  | textOut
deriving DecidableEq, Repr

/-- The inbound loop of `ChannelSender::run` with `handle_binary_message`
(src/message.rs:190-287), parametric in the dispatcher `d` (the source calls
`WsPayload::handle_payload`); the input is the list of successfully received
frames (socket errors, timeouts and stream end are orthogonal here).  The
result is the list of messages published to the hub, paired with `some e`
when the task returned early because `handle_binary_message` propagated
`SocketError::DecodeError` through `?` — frames after that point are never
read.  A text frame publishes the rejection notice and continues
(`handle_text_message` returns `Ok`); ping/pong frames are skipped. -/
def channel_sender_run (d : WsMessage → List Nat) :
    List InboundFrame → List Outbound × Option DecodeError
  | [] => ([], none)
  | .binaryFrame data :: rest =>
      match decode_ws_message data with
      | .ok parsed =>
          let r := channel_sender_run d rest
          (.binaryOut (d parsed) :: r.1, r.2)
      | .error e => ([], some e)
  | .textFrame _ :: rest =>
      let r := channel_sender_run d rest
      (.textOut :: r.1, r.2)
  | .controlFrame :: rest => channel_sender_run d rest

/-- The inbound loop `handle_send_to_channel` (src/socket.rs:26-63; the
`recv_task` of src/main.rs is the same loop): a frame that fails to decode is
logged (`eprintln!`) and skipped, the loop continues; a text frame publishes
the rejection notice and `break`s. -/
def handle_send_to_channel (d : WsMessage → List Nat) :
    List InboundFrame → List Outbound
  | [] => []
  | .binaryFrame data :: rest =>
      match decode_ws_message data with
      | .ok parsed => .binaryOut (d parsed) :: handle_send_to_channel d rest
      | .error _ => handle_send_to_channel d rest
  | .textFrame _ :: _ => [.textOut]
  | .controlFrame :: rest => handle_send_to_channel d rest

/-- C7 counterexample: in `ChannelSender` (message.rs) a single bad binary
frame ends the inbound task with the decode error; the valid frame right
behind it is never processed and nothing is published.  A decode failure
does terminate that connection. -/
theorem channel_sender_terminates_on_bad_frame :
    channel_sender_run Payload.create_echo_response
        [.binaryFrame [0], .binaryFrame [1, 1, 0, 0, 0, 0, 0]] =
      ([], some .tooShort) := by
  decide

/-- C7 (amended): in the socket.rs/main.rs inbound loop a frame that fails to
decode is skipped — nothing is published for it and the rest of the stream is
processed as if it had not arrived; in message.rs's `ChannelSender` the same
failure instead ends the inbound task with the error, discarding the
unprocessed rest. -/
theorem decode_failure_skips_frame :
    (∀ d data e rest, decode_ws_message data = .error e →
      handle_send_to_channel d (.binaryFrame data :: rest) =
        handle_send_to_channel d rest) ∧
    (∀ d data e rest, decode_ws_message data = .error e →
      channel_sender_run d (.binaryFrame data :: rest) = ([], some e)) := by
  constructor
  · intro d data e rest h
    simp only [handle_send_to_channel, h]
  · intro d data e rest h
    simp only [channel_sender_run, h]

/-- C7 witness: a malformed 2-byte frame is skipped by the socket.rs loop and
terminates the message.rs loop. -/
theorem decode_failure_skips_frame_witness :
    handle_send_to_channel Payload.create_echo_response
        [.binaryFrame [9, 9], .binaryFrame [1, 1, 0, 0, 0, 0, 0]] =
      handle_send_to_channel Payload.create_echo_response
        [.binaryFrame [1, 1, 0, 0, 0, 0, 0]] ∧
    channel_sender_run Payload.create_echo_response [.binaryFrame [9, 9]] =
      ([], some .tooShort) :=
  ⟨decode_failure_skips_frame.1 _ [9, 9] .tooShort _ rfl,
    decode_failure_skips_frame.2 _ [9, 9] .tooShort _ rfl⟩

end GolServer
